import Mathlib

/-!
Verification of the in-memory key-value store
(`internal/store/memory/memory.go` of mo-mohamed/acronis-memory-store).

The Go store is a `map[string]Value` guarded by a readers-writer lock,
with lazy TTL expiration on access plus a background sweep.  We embed the
sequential semantics of each operation: the map becomes an association
list, `time.Time` instants become `Nat` (with `0` playing the role of Go's
zero `time.Time`, so `IsZero ↔ TTL = 0`, `Before ↔ <`, `After ↔ >`), and
every call to `time.Now()` inside one operation observes the same instant
`now`.  Dynamic `any` inputs become the inductive `GoValue`; `Stringify`
(the string pass-through plus `json.Marshal`) becomes `stringify`,
returning `none` where `json.Marshal` errors.
-/

namespace MemStore

/-- Dynamic (`any`) values that callers may hand to Set/Update/Push:
strings, JSON-encodable scalars, and a value that `json.Marshal`
rejects (e.g. a Go channel). -/
inductive GoValue where
  | str (s : String)
  | int (n : Int)
  | boolean (b : Bool)
  | null
  | unencodable
deriving DecidableEq, Repr

/-- `MemoryStore.Stringify`: strings pass through unchanged; every other
value goes through `json.Marshal` (compact deterministic JSON for the
scalar shapes modelled here); `none` models the marshal error. -/
def stringify : GoValue → Option String
  | .str s => some s
  | .int n => some (toString n)
  | .boolean b => some (cond b "true" "false")
  | .null => some "null"
  | .unencodable => none

/-- The stored `Value` struct: `Val`, `TTL` (a `time.Time`; `0` is the
zero instant, meaning no expiration), `IsList`, and the list payload. -/
structure Value where
  val : String
  ttl : Nat
  isList : Bool
  list : List String
deriving DecidableEq, Repr

/-- The zero `Value` produced by reading a missing map key in Go. -/
def Value.zero : Value := ⟨"", 0, false, []⟩

/-- The `data` map of `MemoryStore`, as an association list. -/
def Store := List (String × Value)
deriving DecidableEq

/-- `s.data[key]` (first binding wins). -/
def lookup (s : Store) (k : String) : Option Value :=
  match s with
  | [] => none
  | (k', v) :: rest => if k' = k then some v else lookup rest k

/-- `s.data[key] = v`: replace the binding in place, or append. -/
def insert (s : Store) (k : String) (v : Value) : Store :=
  match s with
  | [] => [(k, v)]
  | (k', v') :: rest => if k' = k then (k, v) :: rest else (k', v') :: insert rest k v

/-- `delete(s.data, key)`. -/
def erase (s : Store) (k : String) : Store :=
  match s with
  | [] => []
  | (k', v') :: rest => if k' = k then erase rest k else (k', v') :: erase rest k

/-- The five error values of the store. -/
inductive StoreErr where
  | keyNotFound
  | typeMismatch
  | invalidTTL
  | emptyList
  | marshalFailed
deriving DecidableEq, Repr

/-- The expiry test used on every delete path of the Go code:
`!v.TTL.IsZero() && time.Now().After(v.TTL)`. -/
def Value.expiredAt (v : Value) (now : Nat) : Prop :=
  v.ttl ≠ 0 ∧ v.ttl < now

instance (v : Value) (now : Nat) : Decidable (v.expiredAt now) := by
  unfold Value.expiredAt; infer_instance

/-- `MemoryStore.Set`. -/
def set (s : Store) (now : Nat) (key : String) (value : GoValue) (ttlSeconds : Int) :
    Store × Except StoreErr Unit :=
  if ttlSeconds < 0 then (s, .error .invalidTTL)
  else
    match stringify value with
    | none => (s, .error .marshalFailed)
    | some sv =>
      let ttl : Nat := if 0 < ttlSeconds then now + ttlSeconds.toNat else 0
      (insert s key ⟨sv, ttl, false, []⟩, .ok ())

/-- `MemoryStore.Get`.  The fast path tests liveness with
`v.TTL.IsZero() || now.Before(v.TTL)`; the slow (lock-upgrade) path
re-fetches the entry and deletes it only when `now.After(v.TTL)`. -/
def get (s : Store) (now : Nat) (key : String) : Store × Except StoreErr String :=
  match lookup s key with
  | none => (s, .error .keyNotFound)
  | some v =>
    if v.ttl = 0 ∨ now < v.ttl then
      if v.isList then (s, .error .typeMismatch) else (s, .ok v.val)
    else
      match lookup s key with
      | none => (s, .error .keyNotFound)
      | some w =>
        if w.expiredAt now then (erase s key, .error .keyNotFound)
        else if w.isList then (s, .error .typeMismatch)
        else (s, .ok w.val)

/-- `MemoryStore.Update`. -/
def update (s : Store) (now : Nat) (key : String) (value : GoValue) :
    Store × Except StoreErr Unit :=
  match stringify value with
  | none => (s, .error .marshalFailed)
  | some sv =>
    match lookup s key with
    | none => (s, .error .keyNotFound)
    | some v =>
      if v.expiredAt now then (erase s key, .error .keyNotFound)
      else if v.isList then (s, .error .typeMismatch)
      else (insert s key { v with val := sv }, .ok ())

/-- `MemoryStore.Remove`: no expiry test at all. -/
def remove (s : Store) (key : String) : Store × Except StoreErr Unit :=
  match lookup s key with
  | none => (s, .error .keyNotFound)
  | some _ => (erase s key, .ok ())

/-- `MemoryStore.Push`.  The Go code reads `v := s.data[key]` (zero value
when absent), replaces `v` by a fresh empty list entry when the key is
absent or expired (lazily deleting the expired binding first), rejects a
non-list `v` with a type mismatch, and otherwise prepends. -/
def push (s : Store) (now : Nat) (key : String) (item : GoValue) :
    Store × Except StoreErr Unit :=
  match stringify item with
  | none => (s, .error .marshalFailed)
  | some si =>
    match lookup s key with
    | none =>
      let v : Value := ⟨"", 0, true, []⟩
      (insert s key { v with list := si :: v.list }, .ok ())
    | some v =>
      if v.expiredAt now then
        let w : Value := ⟨"", 0, true, []⟩
        (insert (erase s key) key { w with list := si :: w.list }, .ok ())
      else if v.isList then
        (insert s key { v with list := si :: v.list }, .ok ())
      else (s, .error .typeMismatch)

/-- `MemoryStore.Pop`. -/
def pop (s : Store) (now : Nat) (key : String) : Store × Except StoreErr String :=
  match lookup s key with
  | none => (s, .error .keyNotFound)
  | some v =>
    if v.expiredAt now then (erase s key, .error .keyNotFound)
    else if v.isList then
      match v.list with
      | [] => (s, .error .emptyList)
      | item :: rest => (insert s key { v with list := rest }, .ok item)
    else (s, .error .typeMismatch)

/-! ### Association-list lemmas -/

theorem lookup_insert_self (s : Store) (k : String) (v : Value) :
    lookup (insert s k v) k = some v := by
  induction s with
  | nil => simp [insert, lookup]
  | cons hd tl ih =>
    obtain ⟨k', v'⟩ := hd
    by_cases h : k' = k <;> simp [insert, lookup, h, ih]

theorem lookup_insert_ne (s : Store) (k k' : String) (v : Value) (h : k' ≠ k) :
    lookup (insert s k v) k' = lookup s k' := by
  have hk : ¬ (k = k') := fun hh => h hh.symm
  induction s with
  | nil => simp [insert, lookup, hk]
  | cons hd tl ih =>
    obtain ⟨k₀, v₀⟩ := hd
    by_cases h0 : k₀ = k
    · subst h0
      simp [insert, lookup, hk]
    · by_cases h1 : k₀ = k' <;> simp [insert, lookup, h, h0, h1, ih]

theorem lookup_erase_self (s : Store) (k : String) :
    lookup (erase s k) k = none := by
  induction s with
  | nil => simp [erase, lookup]
  | cons hd tl ih =>
    obtain ⟨k', v'⟩ := hd
    by_cases h : k' = k <;> simp [erase, lookup, h, ih]

theorem lookup_erase_ne (s : Store) (k k' : String) (h : k' ≠ k) :
    lookup (erase s k) k' = lookup s k' := by
  have hk : ¬ (k = k') := fun hh => h hh.symm
  induction s with
  | nil => simp [erase, lookup]
  | cons hd tl ih =>
    obtain ⟨k₀, v₀⟩ := hd
    by_cases h0 : k₀ = k
    · subst h0
      simp [erase, lookup, hk, ih]
    · by_cases h1 : k₀ = k' <;> simp [erase, lookup, h, h0, h1, ih]

/-- Behaviour of `get` on a present key: the fast path (`IsZero || Before`)
and the lock-upgrade path (`After`) combine into: delete and report
not-found exactly when `now` is strictly after a non-zero `TTL`; otherwise
answer from the entry. -/
theorem get_lookup_some (s : Store) (now : Nat) (key : String) (v : Value)
    (h : lookup s key = some v) :
    get s now key =
      if v.expiredAt now then (erase s key, .error .keyNotFound)
      else if v.isList then (s, .error .typeMismatch)
      else (s, .ok v.val) := by
  simp only [get, h]
  by_cases h1 : v.ttl = 0 ∨ now < v.ttl
  · have hne : ¬ v.expiredAt now := by
      unfold Value.expiredAt
      rcases h1 with h1 | h1
      · simp [h1]
      · omega
    simp [h1, hne]
  · by_cases h2 : v.expiredAt now <;> simp [h1, h2]

theorem update_lookup_some (s : Store) (now : Nat) (key : String) (value : GoValue)
    (sv : String) (v : Value) (hsv : stringify value = some sv)
    (hv : lookup s key = some v) :
    update s now key value =
      if v.expiredAt now then (erase s key, .error .keyNotFound)
      else if v.isList then (s, .error .typeMismatch)
      else (insert s key { v with val := sv }, .ok ()) := by
  simp only [update, hsv, hv]

theorem pop_lookup_some (s : Store) (now : Nat) (key : String) (v : Value)
    (hv : lookup s key = some v) :
    pop s now key =
      if v.expiredAt now then (erase s key, .error .keyNotFound)
      else if v.isList then
        (match v.list with
         | [] => (s, .error .emptyList)
         | item :: rest => (insert s key { v with list := rest }, .ok item))
      else (s, .error .typeMismatch) := by
  simp only [pop, hv]

/-- `get` on a store that does not contain the key. -/
theorem get_lookup_none (s : Store) (now : Nat) (key : String)
    (h : lookup s key = none) :
    get s now key = (s, .error .keyNotFound) := by
  simp only [get, h]

theorem update_lookup_none (s : Store) (now : Nat) (key : String) (value : GoValue)
    (sv : String) (hsv : stringify value = some sv) (h : lookup s key = none) :
    update s now key value = (s, .error .keyNotFound) := by
  simp only [update, hsv, h]

theorem pop_lookup_none (s : Store) (now : Nat) (key : String)
    (h : lookup s key = none) :
    pop s now key = (s, .error .keyNotFound) := by
  simp only [pop, h]

/-!
### C1

The claim asserts "expired exactly when now is at or after expiresAt" and
in particular `KeyNotFound` at the boundary instant `now = expiresAt`.
The code disagrees at the boundary: `Get`'s fast path rejects the entry
(`now.Before(TTL)` is false) but the lock-upgrade recheck deletes only
when `now.After(TTL)`, which is also false, so the value is returned.
-/

/-- C1 (counterexample): set `"k"` at instant `2` with `ttlSeconds = 3`
(so `expiresAt = 5`); `Get` at the boundary instant `now = 5` returns the
value, not `KeyNotFound` as the claim requires. -/
theorem C1_boundary_counterexample :
    (set [] 2 "k" (GoValue.str "v") 3).2 = Except.ok () ∧
    (get (set [] 2 "k" (GoValue.str "v") 3).1 5 "k").2 = Except.ok "v" ∧
    (get (set [] 2 "k" (GoValue.str "v") 3).1 5 "k").2 ≠
      Except.error StoreErr.keyNotFound := by
  refine ⟨rfl, rfl, ?_⟩
  intro h
  have h2 : Except.ok "v" = Except.error StoreErr.keyNotFound := Eq.trans (by rfl) h
  exact Except.noConfusion h2

/-- C1 (amended): an entry is treated as expired exactly when the current
instant is strictly after its non-zero `expiresAt`; a zero/absent
`expiresAt` always means live.  For a key set with `ttlSeconds = t > 0`,
`Get` returns the value at any instant at or before `expiresAt`
(boundary included) and fails with `KeyNotFound` (deleting the entry) at
any instant strictly after `expiresAt`. -/
theorem C1_expiry_semantics (s : Store) (now : Nat) (key : String) (value : GoValue)
    (t : Int) (sv : String) (ht : 0 < t) (hsv : stringify value = some sv) :
    (set s now key value t).2 = Except.ok () ∧
    (∀ m, m ≤ now + t.toNat →
      get (set s now key value t).1 m key
        = ((set s now key value t).1, Except.ok sv)) ∧
    (∀ m, now + t.toNat < m →
      get (set s now key value t).1 m key
        = (erase (set s now key value t).1 key, Except.error StoreErr.keyNotFound)) := by
  have hnn : ¬ t < 0 := by omega
  have hset : set s now key value t
      = (insert s key ⟨sv, now + t.toNat, false, []⟩, Except.ok ()) := by
    simp [set, hnn, hsv, ht]
  have hl : lookup (set s now key value t).1 key = some ⟨sv, now + t.toNat, false, []⟩ := by
    rw [hset]; exact lookup_insert_self s key _
  have httl : (0 : Nat) < now + t.toNat := by
    have : (0 : Nat) < t.toNat := by omega
    omega
  refine ⟨by rw [hset], ?_, ?_⟩
  · intro m hm
    rw [get_lookup_some _ m key _ hl]
    have hne : ¬ (Value.mk sv (now + t.toNat) false []).expiredAt m := by
      unfold Value.expiredAt; simp; omega
    simp [hne]
  · intro m hm
    rw [get_lookup_some _ m key _ hl]
    have hexp : (Value.mk sv (now + t.toNat) false []).expiredAt m := by
      unfold Value.expiredAt
      refine ⟨?_, hm⟩
      show now + t.toNat ≠ 0
      omega
    simp [hexp]

/-- C1 witness: the amended theorem at `now = 2`, `t = 3`, evaluated at
instants `5` (boundary, value returned) and `6` (strictly after,
`KeyNotFound`). -/
theorem C1_expiry_semantics_witness :
    (get (set [] 2 "k" (GoValue.str "v") 3).1 5 "k").2 = Except.ok "v" ∧
    (get (set [] 2 "k" (GoValue.str "v") 3).1 6 "k").2
      = Except.error StoreErr.keyNotFound := by
  have h := C1_expiry_semantics [] 2 "k" (GoValue.str "v") 3 "v" (by decide) (by rfl)
  exact ⟨by rw [h.2.1 5 (by decide)], by rw [h.2.2 6 (by decide)]⟩

/-- C2: a present entry with non-zero `expiresAt` in the past behaves,
under each of `Get`, `Update` and `Pop`, exactly like a deleted key: the
operation fails with `KeyNotFound` and deletes the entry, and a second
immediate access also fails with `KeyNotFound` — no resurrection, even
with no sweep. -/
theorem C2_lazy_expiration_consistency (s : Store) (now : Nat) (key : String) (v : Value)
    (hv : lookup s key = some v) (hexp : v.expiredAt now)
    (value : GoValue) (sv : String) (hsv : stringify value = some sv) :
    (get s now key = (erase s key, Except.error StoreErr.keyNotFound) ∧
      lookup (get s now key).1 key = none ∧
      (get (get s now key).1 now key).2 = Except.error StoreErr.keyNotFound) ∧
    (update s now key value = (erase s key, Except.error StoreErr.keyNotFound) ∧
      (update (update s now key value).1 now key value).2
        = Except.error StoreErr.keyNotFound) ∧
    (pop s now key = (erase s key, Except.error StoreErr.keyNotFound) ∧
      (pop (pop s now key).1 now key).2 = Except.error StoreErr.keyNotFound) := by
  have hg : get s now key = (erase s key, Except.error StoreErr.keyNotFound) := by
    rw [get_lookup_some s now key v hv]; simp [hexp]
  have hu : update s now key value = (erase s key, Except.error StoreErr.keyNotFound) := by
    rw [update_lookup_some s now key value sv v hsv hv]; simp [hexp]
  have hp : pop s now key = (erase s key, Except.error StoreErr.keyNotFound) := by
    rw [pop_lookup_some s now key v hv]; simp [hexp]
  have hnone : lookup (erase s key) key = none := lookup_erase_self s key
  refine ⟨⟨hg, ?_, ?_⟩, ⟨hu, ?_⟩, hp, ?_⟩
  · rw [hg]; exact hnone
  · rw [hg, get_lookup_none _ now key hnone]
  · rw [hu, update_lookup_none _ now key value sv hsv hnone]
  · rw [hp, pop_lookup_none _ now key hnone]

/-- C2 witness: a scalar entry at `"k"` with `expiresAt = 5`, accessed at
instant `6`. -/
theorem C2_lazy_expiration_consistency_witness :
    get [("k", Value.mk "v" 5 false [])] 6 "k"
      = ([], Except.error StoreErr.keyNotFound) ∧
    update [("k", Value.mk "v" 5 false [])] 6 "k" (GoValue.str "w")
      = ([], Except.error StoreErr.keyNotFound) ∧
    pop [("k", Value.mk "v" 5 false [])] 6 "k"
      = ([], Except.error StoreErr.keyNotFound) := by
  have h := C2_lazy_expiration_consistency [("k", Value.mk "v" 5 false [])] 6 "k"
    (Value.mk "v" 5 false []) (by rfl) (by constructor <;> decide)
    (GoValue.str "w") "w" (by rfl)
  exact ⟨h.1.1, h.2.1.1, h.2.2.1⟩

/-- C3: after a successful `Set(k, v, ttl ≥ 0)`, a `Get` performed before
any expiry (any instant when `ttl = 0`; any instant strictly before
`expiresAt` when `ttl > 0`) returns exactly `stringify v`, the serializer
being the identity on strings. -/
theorem C3_round_trip (s : Store) (now : Nat) (key : String) (value : GoValue)
    (t : Int) (sv : String) (hsv : stringify value = some sv) (ht : 0 ≤ t)
    (m : Nat) (hm : t = 0 ∨ m < now + t.toNat) :
    (set s now key value t).2 = Except.ok () ∧
    (get (set s now key value t).1 m key).2 = Except.ok sv ∧
    (∀ str, value = GoValue.str str → sv = str) := by
  have hnn : ¬ t < 0 := by omega
  have hset : set s now key value t
      = (insert s key ⟨sv, if 0 < t then now + t.toNat else 0, false, []⟩, Except.ok ()) := by
    simp [set, hnn, hsv]
  have hl : lookup (set s now key value t).1 key
      = some ⟨sv, if 0 < t then now + t.toNat else 0, false, []⟩ := by
    rw [hset]; exact lookup_insert_self s key _
  refine ⟨by rw [hset], ?_, ?_⟩
  · rw [get_lookup_some _ m key _ hl]
    have hne : ¬ (Value.mk sv (if 0 < t then now + t.toNat else 0) false []).expiredAt m := by
      unfold Value.expiredAt
      intro hc
      have h1 : (if 0 < t then now + t.toNat else 0) ≠ 0 := hc.1
      have h2 : (if 0 < t then now + t.toNat else 0) < m := hc.2
      by_cases hp : 0 < t
      · simp [hp] at h1 h2
        rcases hm with hm | hm
        · omega
        · omega
      · simp [hp] at h1
    simp [hne]
  · intro str hstr
    rw [hstr] at hsv
    have h2 : str = sv := by simpa [stringify] using hsv
    exact h2.symm

/-- C3 witness: two instantiations, a string value (passed through
unchanged) and a non-string value (canonical JSON encoding). -/
theorem C3_round_trip_witness :
    (get (set [] 1 "k" (GoValue.str "hello") 4).1 3 "k").2 = Except.ok "hello" ∧
    (get (set [] 1 "n" (GoValue.int 7) 0).1 100 "n").2 = Except.ok "7" := by
  have h1 := C3_round_trip [] 1 "k" (GoValue.str "hello") 4 "hello" (by rfl)
    (by decide) 3 (Or.inr (by decide))
  have h2 := C3_round_trip [] 1 "n" (GoValue.int 7) 0 "7" (by rfl)
    (by decide) 100 (Or.inl rfl)
  exact ⟨h1.2.1, h2.2.1⟩

/-- C4: lists are LIFO stacks: on a live list entry every `Push` prepends
the serialized item at index 0 and every `Pop` removes and returns the
element at index 0 (failing with `EmptyList` on an empty list); the
scripted run `Push a; Push b; Push c` then four `Pop`s yields
`"c"`, `"b"`, `"a"`, `EmptyList`. -/
theorem C4_lifo (s : Store) (now : Nat) (key : String) (v : Value) (item : GoValue)
    (si : String) (hv : lookup s key = some v) (hlive : ¬ v.expiredAt now)
    (hlist : v.isList = true) (hsi : stringify item = some si) :
    (push s now key item = (insert s key { v with list := si :: v.list }, Except.ok ())) ∧
    (∀ x rest, v.list = x :: rest →
      pop s now key = (insert s key { v with list := rest }, Except.ok x)) ∧
    (v.list = [] → pop s now key = (s, Except.error StoreErr.emptyList)) ∧
    (let s1 := (push [] 0 "k" (GoValue.str "a")).1
     let s2 := (push s1 0 "k" (GoValue.str "b")).1
     let s3 := (push s2 0 "k" (GoValue.str "c")).1
     let p1 := pop s3 0 "k"
     let p2 := pop p1.1 0 "k"
     let p3 := pop p2.1 0 "k"
     let p4 := pop p3.1 0 "k"
     p1.2 = Except.ok "c" ∧ p2.2 = Except.ok "b" ∧ p3.2 = Except.ok "a" ∧
       p4.2 = Except.error StoreErr.emptyList) := by
  refine ⟨?_, ?_, ?_, by exact ⟨rfl, rfl, rfl, rfl⟩⟩
  · simp only [push, hsi, hv]
    simp [hlive, hlist]
  · intro x rest hx
    rw [pop_lookup_some s now key v hv]
    simp [hlive, hlist, hx]
  · intro hx
    rw [pop_lookup_some s now key v hv]
    simp [hlive, hlist, hx]

/-- C4 witness: the universal clauses applied to a concrete live list
entry `["b", "a"]` at `"k"`. -/
theorem C4_lifo_witness :
    push [("k", Value.mk "" 0 true ["b", "a"])] 1 "k" (GoValue.str "c")
      = ([("k", Value.mk "" 0 true ["c", "b", "a"])], Except.ok ()) ∧
    pop [("k", Value.mk "" 0 true ["b", "a"])] 1 "k"
      = ([("k", Value.mk "" 0 true ["a"])], Except.ok "b") := by
  have h := C4_lifo [("k", Value.mk "" 0 true ["b", "a"])] 1 "k"
    (Value.mk "" 0 true ["b", "a"]) (GoValue.str "c") "c" (by rfl)
    (by intro hc; exact hc.1 rfl) (by rfl) (by rfl)
  exact ⟨h.1, h.2.1 "b" ["a"] rfl⟩

/-- C5: `Push` on an absent key, or on a key whose entry (of either kind)
is expired, succeeds: any expired entry is first deleted and replaced by a
fresh empty List entry with no `expiresAt` (`TTL = 0`), then the item is
prepended; `Push` fails with `TypeMismatch` exactly when an unexpired
Scalar entry is present, and then the store is unchanged. -/
theorem C5_push_creation (s : Store) (now : Nat) (key : String) (item : GoValue)
    (si : String) (hsi : stringify item = some si) :
    (lookup s key = none →
      push s now key item = (insert s key (Value.mk "" 0 true [si]), Except.ok ())) ∧
    (∀ v, lookup s key = some v → v.expiredAt now →
      push s now key item
        = (insert (erase s key) key (Value.mk "" 0 true [si]), Except.ok ())) ∧
    ((push s now key item).2 = Except.error StoreErr.typeMismatch ↔
      ∃ v, lookup s key = some v ∧ v.isList = false ∧ ¬ v.expiredAt now) ∧
    ((push s now key item).2 = Except.error StoreErr.typeMismatch →
      (push s now key item).1 = s) := by
  refine ⟨?_, ?_, ?_, ?_⟩
  · intro h
    simp [push, hsi, h]
  · intro v hv hexp
    simp [push, hsi, hv, hexp]
  · constructor
    · intro h
      cases hl : lookup s key with
      | none => simp [push, hsi, hl] at h
      | some v =>
        refine ⟨v, rfl, ?_, ?_⟩
        · by_cases hexp : v.expiredAt now
          · simp [push, hsi, hl, hexp] at h
          · by_cases hil : v.isList
            · simp [push, hsi, hl, hexp, hil] at h
            · simpa using hil
        · intro hexp
          simp [push, hsi, hl, hexp] at h
    · rintro ⟨v, hv, hscalar, hlive⟩
      simp [push, hsi, hv, hlive, hscalar]
  · intro h
    cases hl : lookup s key with
    | none => simp [push, hsi, hl] at h
    | some v =>
      by_cases hexp : v.expiredAt now
      · simp [push, hsi, hl, hexp] at h
      · by_cases hil : v.isList
        · simp [push, hsi, hl, hexp, hil] at h
        · simp [push, hsi, hl, hexp, hil]

/-- C5 witness: an absent key, an expired scalar entry, and a live scalar
entry (the `TypeMismatch` case, store unchanged). -/
theorem C5_push_creation_witness :
    push [] 1 "k" (GoValue.str "x") = ([("k", Value.mk "" 0 true ["x"])], Except.ok ()) ∧
    push [("k", Value.mk "old" 5 false [])] 9 "k" (GoValue.str "x")
      = ([("k", Value.mk "" 0 true ["x"])], Except.ok ()) ∧
    (push [("k", Value.mk "old" 0 false [])] 9 "k" (GoValue.str "x")).2
      = Except.error StoreErr.typeMismatch ∧
    (push [("k", Value.mk "old" 0 false [])] 9 "k" (GoValue.str "x")).1
      = [("k", Value.mk "old" 0 false [])] := by
  have h1 := C5_push_creation [] 1 "k" (GoValue.str "x") "x" (by rfl)
  have h2 := C5_push_creation [("k", Value.mk "old" 5 false [])] 9 "k"
    (GoValue.str "x") "x" (by rfl)
  have h3 := C5_push_creation [("k", Value.mk "old" 0 false [])] 9 "k"
    (GoValue.str "x") "x" (by rfl)
  have he : (push [("k", Value.mk "old" 0 false [])] 9 "k" (GoValue.str "x")).2
      = Except.error StoreErr.typeMismatch :=
    h3.2.2.1.mpr ⟨Value.mk "old" 0 false [], rfl, rfl, by intro hc; exact hc.1 rfl⟩
  refine ⟨?_, ?_, he, h3.2.2.2 he⟩
  · have := h1.1 rfl
    simpa [insert] using this
  · have := h2.2.1 (Value.mk "old" 5 false []) rfl ⟨by decide, by decide⟩
    simpa [insert, erase] using this

/-- C6: `Set` fails with `InvalidTTL` exactly when `ttlSeconds < 0`,
leaving the store unchanged; on success it unconditionally replaces any
prior entry at the key with a Scalar entry holding the serialized value,
with no expiration when `ttlSeconds = 0` and `expiresAt = now + ttlSeconds`
when `ttlSeconds > 0`. -/
theorem C6_set_semantics (s : Store) (now : Nat) (key : String) (value : GoValue)
    (t : Int) :
    ((set s now key value t).2 = Except.error StoreErr.invalidTTL ↔ t < 0) ∧
    (t < 0 → (set s now key value t).1 = s) ∧
    (∀ sv, stringify value = some sv → 0 ≤ t →
      set s now key value t
        = (insert s key
            (Value.mk sv (if 0 < t then now + t.toNat else 0) false []), Except.ok ()) ∧
      lookup (set s now key value t).1 key
        = some (Value.mk sv (if 0 < t then now + t.toNat else 0) false [])) := by
  refine ⟨?_, ?_, ?_⟩
  · constructor
    · intro h
      by_cases hneg : t < 0
      · exact hneg
      · exfalso
        cases hsv : stringify value with
        | none => simp [set, hneg, hsv] at h
        | some sv => simp [set, hneg, hsv] at h
    · intro hneg
      simp [set, hneg]
  · intro hneg
    simp [set, hneg]
  · intro sv hsv hge
    have hneg : ¬ t < 0 := by omega
    have h1 : set s now key value t
        = (insert s key
            (Value.mk sv (if 0 < t then now + t.toNat else 0) false []), Except.ok ()) := by
      simp [set, hneg, hsv]
    exact ⟨h1, by rw [h1]; exact lookup_insert_self s key _⟩

/-- C6 witness: negative TTL rejected with the store unchanged; `t = 0`
stores a never-expiring entry; `t = 3` at instant `2` stores
`expiresAt = 5`, replacing a prior list entry. -/
theorem C6_set_semantics_witness :
    ((set [] 0 "k" (GoValue.str "v") (-1)).2 = Except.error StoreErr.invalidTTL) ∧
    ((set [] 0 "k" (GoValue.str "v") (-1)).1 = []) ∧
    (set [("k", Value.mk "" 0 true ["x"])] 2 "k" (GoValue.str "v") 3
      = ([("k", Value.mk "v" 5 false [])], Except.ok ())) := by
  have h1 := C6_set_semantics [] 0 "k" (GoValue.str "v") (-1)
  have h2 := C6_set_semantics [("k", Value.mk "" 0 true ["x"])] 2 "k" (GoValue.str "v") 3
  refine ⟨h1.1.mpr (by decide), h1.2.1 (by decide), ?_⟩
  have := (h2.2.2 "v" (by rfl) (by decide)).1
  simpa [insert] using this

/-- C7: a successful `Update` on a live Scalar entry replaces only the
stored string with the serialized value, leaves `expiresAt` (and the
rest of the entry) unchanged, and does not affect any other key. -/
theorem C7_update_preserves_ttl (s : Store) (now : Nat) (key : String) (value : GoValue)
    (sv : String) (v : Value) (hsv : stringify value = some sv)
    (hv : lookup s key = some v) (hlive : ¬ v.expiredAt now)
    (hscalar : v.isList = false) :
    update s now key value = (insert s key { v with val := sv }, Except.ok ()) ∧
    lookup (update s now key value).1 key = some (Value.mk sv v.ttl v.isList v.list) ∧
    (∀ k', k' ≠ key → lookup (update s now key value).1 k' = lookup s k') := by
  have h1 : update s now key value = (insert s key { v with val := sv }, Except.ok ()) := by
    rw [update_lookup_some s now key value sv v hsv hv]
    simp [hlive, hscalar]
  refine ⟨h1, ?_, ?_⟩
  · rw [h1]
    exact lookup_insert_self s key _
  · intro k' hk'
    rw [h1]
    exact lookup_insert_ne s key k' _ hk'

/-- C7 witness: updating `"k"` (scalar, `expiresAt = 10`) at instant `3`
keeps `expiresAt = 10` and leaves `"other"` untouched. -/
theorem C7_update_preserves_ttl_witness :
    update [("k", Value.mk "x" 10 false []), ("other", Value.mk "z" 0 false [])] 3 "k"
        (GoValue.str "y")
      = ([("k", Value.mk "y" 10 false []), ("other", Value.mk "z" 0 false [])],
          Except.ok ()) ∧
    lookup (update [("k", Value.mk "x" 10 false []), ("other", Value.mk "z" 0 false [])]
        3 "k" (GoValue.str "y")).1 "other" = some (Value.mk "z" 0 false []) := by
  have h := C7_update_preserves_ttl
    [("k", Value.mk "x" 10 false []), ("other", Value.mk "z" 0 false [])] 3 "k"
    (GoValue.str "y") "y" (Value.mk "x" 10 false []) (by rfl) (by rfl)
    (by intro hc; exact absurd hc.2 (by decide)) (by rfl)
  refine ⟨?_, h.2.2 "other" (by decide)⟩
  have := h.1
  simpa [insert] using this

/-- C8: the store's failure modes are exactly the five declared error
values, and a `Serialize` failure inside `Set` (with a valid TTL),
`Update` or `Push` yields `SerializationFailure` with the store left
completely unchanged — no entry is created or mutated. -/
theorem C8_serialization_failure_atomic (s : Store) (now : Nat) (key : String)
    (value : GoValue) (t : Int) (hbad : stringify value = none) :
    (∀ e : StoreErr, e = StoreErr.keyNotFound ∨ e = StoreErr.typeMismatch ∨
      e = StoreErr.invalidTTL ∨ e = StoreErr.emptyList ∨ e = StoreErr.marshalFailed) ∧
    (0 ≤ t → set s now key value t = (s, Except.error StoreErr.marshalFailed)) ∧
    update s now key value = (s, Except.error StoreErr.marshalFailed) ∧
    push s now key value = (s, Except.error StoreErr.marshalFailed) := by
  refine ⟨?_, ?_, ?_, ?_⟩
  · intro e
    cases e
    · exact Or.inl rfl
    · exact Or.inr (Or.inl rfl)
    · exact Or.inr (Or.inr (Or.inl rfl))
    · exact Or.inr (Or.inr (Or.inr (Or.inl rfl)))
    · exact Or.inr (Or.inr (Or.inr (Or.inr rfl)))
  · intro hge
    have hneg : ¬ t < 0 := by omega
    simp [set, hneg, hbad]
  · simp [update, hbad]
  · simp [push, hbad]

/-- C8 witness: `GoValue.unencodable` (a value `json.Marshal` rejects)
fed to `Set`, `Update` and `Push` over a non-empty store. -/
theorem C8_serialization_failure_atomic_witness :
    set [("k", Value.mk "v" 0 false [])] 1 "k" GoValue.unencodable 5
      = ([("k", Value.mk "v" 0 false [])], Except.error StoreErr.marshalFailed) ∧
    update [("k", Value.mk "v" 0 false [])] 1 "k" GoValue.unencodable
      = ([("k", Value.mk "v" 0 false [])], Except.error StoreErr.marshalFailed) ∧
    push [("k", Value.mk "v" 0 false [])] 1 "k" GoValue.unencodable
      = ([("k", Value.mk "v" 0 false [])], Except.error StoreErr.marshalFailed) := by
  have h := C8_serialization_failure_atomic [("k", Value.mk "v" 0 false [])] 1 "k"
    GoValue.unencodable 5 (by rfl)
  exact ⟨h.2.1 (by decide), h.2.2.1, h.2.2.2⟩

/-- C9: a live List entry makes `Get` and `Update` fail with
`TypeMismatch`; a live Scalar entry makes `Push` and `Pop` fail with
`TypeMismatch`, and in `Pop` the type check precedes the emptiness
check, so a Scalar entry never yields `EmptyList`. -/
theorem C9_type_isolation (s : Store) (now : Nat) (key : String) (v : Value)
    (value : GoValue) (sv : String) (hsv : stringify value = some sv)
    (hv : lookup s key = some v) (hlive : ¬ v.expiredAt now) :
    (v.isList = true →
      (get s now key).2 = Except.error StoreErr.typeMismatch ∧
      (update s now key value).2 = Except.error StoreErr.typeMismatch) ∧
    (v.isList = false →
      (push s now key value).2 = Except.error StoreErr.typeMismatch ∧
      (pop s now key).2 = Except.error StoreErr.typeMismatch ∧
      (pop s now key).2 ≠ Except.error StoreErr.emptyList) := by
  refine ⟨?_, ?_⟩
  · intro hlist
    constructor
    · rw [get_lookup_some s now key v hv]
      simp [hlive, hlist]
    · rw [update_lookup_some s now key value sv v hsv hv]
      simp [hlive, hlist]
  · intro hscalar
    have hpop : (pop s now key).2 = Except.error StoreErr.typeMismatch := by
      rw [pop_lookup_some s now key v hv]
      simp [hlive, hscalar]
    refine ⟨?_, hpop, ?_⟩
    · simp [push, hsv, hv, hlive, hscalar]
    · rw [hpop]
      intro hc
      have h2 : StoreErr.typeMismatch = StoreErr.emptyList := by
        injection hc
      exact StoreErr.noConfusion h2

/-- C9 witness: a live list entry under `Get`/`Update` and a live scalar
entry under `Push`/`Pop` (the scalar's list payload is empty, yet `Pop`
reports `TypeMismatch`, not `EmptyList`). -/
theorem C9_type_isolation_witness :
    (get [("l", Value.mk "" 0 true ["a"])] 1 "l").2
      = Except.error StoreErr.typeMismatch ∧
    (update [("l", Value.mk "" 0 true ["a"])] 1 "l" (GoValue.str "w")).2
      = Except.error StoreErr.typeMismatch ∧
    (push [("s", Value.mk "v" 0 false [])] 1 "s" (GoValue.str "w")).2
      = Except.error StoreErr.typeMismatch ∧
    (pop [("s", Value.mk "v" 0 false [])] 1 "s").2
      = Except.error StoreErr.typeMismatch ∧
    (pop [("s", Value.mk "v" 0 false [])] 1 "s").2
      ≠ Except.error StoreErr.emptyList := by
  have hl := C9_type_isolation [("l", Value.mk "" 0 true ["a"])] 1 "l"
    (Value.mk "" 0 true ["a"]) (GoValue.str "w") "w" (by rfl) (by rfl)
    (by intro hc; exact hc.1 rfl)
  have hs := C9_type_isolation [("s", Value.mk "v" 0 false [])] 1 "s"
    (Value.mk "v" 0 false []) (GoValue.str "w") "w" (by rfl) (by rfl)
    (by intro hc; exact hc.1 rfl)
  exact ⟨(hl.1 rfl).1, (hl.1 rfl).2, (hs.2 rfl).1, (hs.2 rfl).2.1, (hs.2 rfl).2.2⟩

/-- C10: `Remove` performs no expiration check — it takes no notion of
"now" at all: it fails with `KeyNotFound` exactly when the key is absent
from the map, and succeeds (deleting the binding) whenever a binding is
present, even one whose `expiresAt` is non-zero and in the past. -/
theorem C10_remove_no_expiry_check (s : Store) (key : String) :
    (lookup s key = none → remove s key = (s, Except.error StoreErr.keyNotFound)) ∧
    (∀ v, lookup s key = some v → remove s key = (erase s key, Except.ok ())) ∧
    ((remove s key).2 = Except.error StoreErr.keyNotFound ↔ lookup s key = none) := by
  refine ⟨?_, ?_, ?_⟩
  · intro h
    simp [remove, h]
  · intro v hv
    simp [remove, hv]
  · constructor
    · intro h
      cases hl : lookup s key with
      | none => rfl
      | some v => simp [remove, hl] at h
    · intro h
      simp [remove, h]

/-- C10 witness: removing an entry whose `expiresAt = 5` is already past
at any later instant still succeeds (no `KeyNotFound`), and removing an
absent key fails with `KeyNotFound`. -/
theorem C10_remove_no_expiry_check_witness :
    remove [("k", Value.mk "v" 5 false [])] "k" = ([], Except.ok ()) ∧
    remove [] "k" = ([], Except.error StoreErr.keyNotFound) := by
  have h1 := C10_remove_no_expiry_check [("k", Value.mk "v" 5 false [])] "k"
  have h2 := C10_remove_no_expiry_check [] "k"
  refine ⟨?_, h2.1 rfl⟩
  have := h1.2.1 (Value.mk "v" 5 false []) rfl
  simpa [erase] using this

end MemStore
